import Mathlib

/-!
Shallow embedding of the Izly QR-code generator script (src/main.py) and
proofs of the specification claims about it.

The script is a linear client: `get_csrf` fetches the login page and extracts
an anti-forgery token, `get_credentials` submits the login form and extracts
the authentication cookie, `get_qrcode` fetches the JSON list of QR-code
records, and `save_qrcode` decodes the embedded base64 images and composites
them into one canvas.  HTTP requests are modelled by taking the response as an
explicit input; Python exceptions become an explicit error type; the PIL image
byte format is modelled by an invertible serialisation; Python's `re` and
`base64` behaviour on the concrete patterns used is translated directly.
-/

namespace Izly

/-- Failure outcomes of the script.  `permissionError` and `requestException`
mirror the Python exceptions the status decorator catches; the remaining
constructors mirror the uncaught Python exceptions the code can raise
(subscripting `None`, a missing dict key, `None.group`, JSON decode failure,
base64 `binascii` failure, and PIL failing to identify image bytes). -/
inductive Err where
  | permissionError (msg : String)
  | requestException (msg : String)
  | typeErrorNone
  | keyErrorValue
  | keyErrorSrc
  | typeErrorSrc
  | attributeErrorNoneGroup
  | jsonDecodeError
  | binasciiError
  | unidentifiedImageError
deriving Repr, DecidableEq

/-- A cookie jar: Python `dict` of cookie name to value, in insertion order. -/
abbrev CookieJar := List (String × String)

/-- Python `d[k] = v` on a dict: replace the value at an existing key in
place, otherwise append the new entry. -/
def dictSet : CookieJar → String → String → CookieJar
  | [], k, v => [(k, v)]
  | (k', v') :: rest, k, v =>
      if k' = k then (k, v) :: rest else (k', v') :: dictSet rest k v

/-- The authentication cookie checked by `get_credentials` (main.py line 102). -/
def authCookieName : String := ".ASPXAUTH"

/-- The hidden form field searched for by `get_csrf` (main.py line 70). -/
def tokenFieldName : String := "__RequestVerificationToken"

/-- Response to the login page GET, as far as the code inspects it: HTTP
status, the HTML input tags (name attribute, optional value attribute) in
document order, and the response cookies. -/
structure LoginPageResponse where
  status : Nat
  inputs : List (String × Option String)
  cookies : CookieJar

/-- Response to the login POST: HTTP status and response cookies. -/
structure LoginResponse where
  status : Nat
  cookies : CookieJar

/-- `get_csrf` (main.py lines 56-70): require status 200, then look up the
first input tag named `__RequestVerificationToken` and return the cookies and
the tag's value.  A missing tag makes the source subscript `None`
(`typeErrorNone`); a tag without a value attribute raises a key error. -/
def get_csrf (resp : LoginPageResponse) : Except Err (CookieJar × String) :=
  if resp.status ≠ 200 then
    .error (.permissionError "Error: can't get the login form")
  else
    match resp.inputs.find? (fun p => p.1 == tokenFieldName) with
    | none => .error .typeErrorNone
    | some (_, none) => .error .keyErrorValue
    | some (_, some v) => .ok (resp.cookies, v)

/-- `get_credentials` (main.py lines 73-107): the login POST response must
have status 302 and carry the `.ASPXAUTH` cookie; then that cookie is merged
into the input jar, which is returned.  Any other outcome raises
`PermissionError` with an invalid-credentials message. -/
def get_credentials (cookies : CookieJar) (login : LoginResponse) :
    Except Err CookieJar :=
  if login.status ≠ 302 then
    .error (.permissionError "Error: Invalid credentials")
  else
    match List.lookup authCookieName login.cookies with
    | none => .error (.permissionError "Error: invalid credentials")
    | some v => .ok (dictSet cookies authCookieName v)

/-- The invalid-credentials failure: `PermissionError` with either of the two
messages raised by `get_credentials`. -/
def isInvalidCredentials (e : Err) : Bool :=
  e == .permissionError "Error: Invalid credentials" ||
    e == .permissionError "Error: invalid credentials"

/-- `Except.ok`-ness as a boolean. -/
def isOkB {α : Type} : Except Err α → Bool
  | .ok _ => true
  | .error _ => false

/-- Minimal JSON values, the shape of `response.json()`. -/
inductive Json where
  | null
  | bool (b : Bool)
  | num (n : Int)
  | str (s : String)
  | arr (items : List Json)
  | obj (fields : List (String × Json))

/-- Response to the QR-code POST: HTTP status and the parsed JSON body
(`none` when the body is not valid JSON). -/
structure QrResponse where
  status : Nat
  json : Option Json

/-- `get_qrcode` (main.py lines 110-136): on any status other than 200 raise
a `RequestException` whose message carries the status code; otherwise return
the parsed JSON body unchanged. -/
def get_qrcode (resp : QrResponse) : Except Err Json :=
  if resp.status ≠ 200 then
    .error (.requestException
      ("Error " ++ toString resp.status ++ ": can't get the qr-code"))
  else
    match resp.json with
    | none => .error .jsonDecodeError
    | some j => .ok j

/-- An HTTP success status (2xx). -/
def isSuccessStatus (s : Nat) : Bool := 200 ≤ s && s < 300

/-! ### Base64 (Python `base64.b64encode` / `b64decode`) -/

/-- The standard base64 alphabet. -/
def b64Chars : List Char :=
  "ABCDEFGHIJKLMNOPQRSTUVWXYZabcdefghijklmnopqrstuvwxyz0123456789+/".data

/-- Character of a 6-bit group. -/
def idxToChar (i : Nat) : Char := b64Chars.getD i '?'

/-- 6-bit group of an alphabet character. -/
def charToIdx (c : Char) : Option Nat := b64Chars.findIdx? (fun d => d == c)

/-- `base64.b64encode` on a byte list: each 3-byte group becomes 4 alphabet
characters, a trailing 1- or 2-byte group is padded with `=`. -/
def b64encode : List Nat → List Char
  | [] => []
  | [a] => [idxToChar (a / 4), idxToChar (a % 4 * 16), '=', '=']
  | [a, b] => [idxToChar (a / 4), idxToChar (a % 4 * 16 + b / 16),
      idxToChar (b % 16 * 4), '=']
  | a :: b :: c :: rest =>
      idxToChar (a / 4) :: idxToChar (a % 4 * 16 + b / 16) ::
        idxToChar (b % 16 * 4 + c / 64) :: idxToChar (c % 64) :: b64encode rest

/-- Decode 4-character groups; `=` padding is accepted only at the very end. -/
def b64decodeGroups : List Char → Option (List Nat)
  | [] => some []
  | c1 :: c2 :: c3 :: c4 :: rest =>
      match charToIdx c1, charToIdx c2 with
      | some i1, some i2 =>
          if c3 = '=' then
            if c4 = '=' ∧ rest = [] then some [i1 * 4 + i2 / 16] else none
          else
            match charToIdx c3 with
            | some i3 =>
                if c4 = '=' then
                  if rest = [] then
                    some [i1 * 4 + i2 / 16, i2 % 16 * 16 + i3 / 4]
                  else none
                else
                  match charToIdx c4, b64decodeGroups rest with
                  | some i4, some tail =>
                      some ((i1 * 4 + i2 / 16) :: (i2 % 16 * 16 + i3 / 4) ::
                        (i3 % 4 * 64 + i4) :: tail)
                  | _, _ => none
            | none => none
      | _, _ => none
  | _ => none

/-- `base64.b64decode` with its default `validate=False`: characters outside
the alphabet and `=` are discarded, then the rest must be whole 4-character
groups. -/
def b64decodePy (cs : List Char) : Option (List Nat) :=
  b64decodeGroups (cs.filter (fun c => b64Chars.contains c || c == '='))

/-! ### Image model (PIL `Image`)

An in-memory RGB image: width, height and a row-major pixel grid.  The byte
format produced by `encodeImage` / read by `decodeImage` models the PNG
payloads the provider embeds: an invertible serialisation of the image. -/

/-- An RGB pixel. -/
abbrev Rgb := Nat × Nat × Nat

/-- An in-memory image: dimensions and row-major pixel rows. -/
structure Img where
  width : Nat
  height : Nat
  pixels : List (List Rgb)
deriving Repr, DecidableEq

/-- Well-formed image: the grid has `height` rows of `width` pixels and every
channel is a byte. -/
def Img.valid (img : Img) : Bool :=
  img.pixels.length == img.height &&
    img.pixels.all (fun row => row.length == img.width &&
      row.all (fun p => p.1 < 256 && p.2.1 < 256 && p.2.2 < 256))

/-- Pixel at column `x`, row `y` (black outside the grid). -/
def Img.getPix (img : Img) (x y : Nat) : Rgb :=
  (img.pixels.getD y []).getD x (0, 0, 0)

/-- `Image.new("RGB", (w, h), color)`: a `w` by `h` canvas filled with
`color`. -/
def imageNew (w h : Nat) (color : Rgb) : Img :=
  ⟨w, h, List.replicate h (List.replicate w color)⟩

/-- `img.resize((w, h))`: sample the source at the proportional position, so
a resize to the image's own dimensions is the identity on content. -/
def Img.resize (img : Img) (w h : Nat) : Img :=
  ⟨w, h, (List.range h).map (fun y => (List.range w).map (fun x =>
    img.getPix (x * img.width / w) (y * img.height / h)))⟩

/-- `canvas.paste(img, (ox, oy))`: pixels in the pasted rectangle come from
`img`, all others keep the canvas value. -/
def Img.paste (canvas img : Img) (ox oy : Nat) : Img :=
  ⟨canvas.width, canvas.height,
    (List.range canvas.height).map (fun y => (List.range canvas.width).map (fun x =>
      if ox ≤ x ∧ x < ox + img.width ∧ oy ≤ y ∧ y < oy + img.height then
        img.getPix (x - ox) (y - oy)
      else canvas.getPix x y))⟩

/-- Unary, self-delimiting natural-number field of the modelled byte format. -/
def encodeNat (n : Nat) : List Nat := List.replicate n 1 ++ [0]

/-- Read back a unary natural-number field. -/
def decodeNat : List Nat → Option (Nat × List Nat)
  | 0 :: rest => some (0, rest)
  | 1 :: rest =>
      match decodeNat rest with
      | some (n, r) => some (n + 1, r)
      | none => none
  | _ => none

/-- Serialise one pixel row as R, G, B bytes. -/
def encodeRow : List Rgb → List Nat
  | [] => []
  | p :: ps => p.1 :: p.2.1 :: p.2.2 :: encodeRow ps

/-- Serialise the pixel rows. -/
def encodeRows : List (List Rgb) → List Nat
  | [] => []
  | r :: rs => encodeRow r ++ encodeRows rs

/-- Serialise an image: width, height, then the pixel bytes. -/
def encodeImage (img : Img) : List Nat :=
  encodeNat img.width ++ encodeNat img.height ++ encodeRows img.pixels

/-- Read back one row of `w` pixels. -/
def decodeRow : Nat → List Nat → Option (List Rgb × List Nat)
  | 0, bs => some ([], bs)
  | w + 1, r :: g :: b :: rest =>
      match decodeRow w rest with
      | some (ps, rem) => some ((r, g, b) :: ps, rem)
      | none => none
  | _ + 1, _ => none

/-- Read back `h` rows of `w` pixels. -/
def decodeRows : Nat → Nat → List Nat → Option (List (List Rgb) × List Nat)
  | 0, _, bs => some ([], bs)
  | h + 1, w, bs =>
      match decodeRow w bs with
      | some (row, r1) =>
          match decodeRows h w r1 with
          | some (rows, r2) => some (row :: rows, r2)
          | none => none
      | none => none

/-- `Image.open` on the modelled byte format: read width, height and exactly
the pixel grid, failing on anything else. -/
def decodeImage (bs : List Nat) : Option Img :=
  match decodeNat bs with
  | none => none
  | some (w, r1) =>
      match decodeNat r1 with
      | none => none
      | some (h, r2) =>
          match decodeRows h w r2 with
          | none => none
          | some (rows, r3) => if r3 = [] then some ⟨w, h, rows⟩ else none

/-! ### The regular expressions of the script

`re.search(r"base64,(.*)", src)` finds the first occurrence of `base64,` and
captures the following characters up to a newline or the end; `.` does not
match a newline.  `re.match(r".*\.(png|jpg|jpeg|gif)$", out)` anchors at the
start; `$` matches at the end of the string or just before a final newline. -/

/-- The literal `base64,` searched for in each record's `Src`. -/
def markerChars : List Char := ['b', 'a', 's', 'e', '6', '4', ',']

/-- Does `pat` occur at the head of the text? -/
def matchesAt : List Char → List Char → Bool
  | [], _ => true
  | _ :: _, [] => false
  | p :: ps, c :: cs => p == c && matchesAt ps cs

/-- Suffix following the first occurrence of `pat`, if any. -/
def findSub (pat : List Char) : List Char → Option (List Char)
  | [] => cond (matchesAt pat []) (some []) none
  | c :: rest =>
      cond (matchesAt pat (c :: rest)) (some ((c :: rest).drop pat.length))
        (findSub pat rest)

/-- `re.search(r"base64,(.*)", s)` group 1: the characters after the first
`base64,`, up to a newline or the end of the string. -/
def reSearchBase64 (s : String) : Option (List Char) :=
  (findSub markerChars s.data).map (fun rest => rest.takeWhile (fun c => c != '\n'))

/-- The extensions accepted by the output-path check. -/
def allowedExts : List (List Char) :=
  [['p', 'n', 'g'], ['j', 'p', 'g'], ['j', 'p', 'e', 'g'], ['g', 'i', 'f']]

/-- Does `rest` consist of an allowed extension followed by the end of the
string or a single final newline (the two positions Python's `$` accepts)? -/
def extAtEnd (rest : List Char) : Bool :=
  allowedExts.any (fun e => rest == e || rest == e ++ ['\n'])

/-- `re.match(r".*\.(png|jpg|jpeg|gif)$", s)` succeeds: some dot, preceded
only by non-newline characters, is followed by an allowed extension at the
effective end of the string. -/
def reMatchOutput : List Char → Bool
  | [] => false
  | c :: rest =>
      (c == '.' && extAtEnd rest) || (c != '\n' && reMatchOutput rest)

/-- The spec's wording of the output check, for comparison with the code's
regex: the path ends in `.png`, `.jpg`, `.jpeg` or `.gif`. -/
def specEndsWithExt (s : String) : Bool :=
  allowedExts.any (fun e => ('.' :: e).isSuffixOf s.data)

/-! ### Image compositor (`save_qrcode`) -/

/-- `qrcode["Src"]` on a JSON record, which must be an object with a string
at `"Src"`; other shapes raise the corresponding Python error. -/
def jsonGetSrc : Json → Except Err String
  | .obj fields =>
      match List.lookup "Src" fields with
      | some (.str s) => .ok s
      | some _ => .error .typeErrorSrc
      | none => .error .keyErrorSrc
  | _ => .error .typeErrorSrc

/-- `Image.open(BytesIO(base64.b64decode(base64_image)))` (main.py line
154): base64-decode the captured payload and open the image bytes. -/
def openPayload (payload : List Char) : Except Err Img :=
  match b64decodePy payload with
  | none => .error .binasciiError
  | some bytes =>
      match decodeImage bytes with
      | none => .error .unidentifiedImageError
      | some img => .ok img

/-- Capture after `base64,` (main.py line 152); a missing marker makes the
source call `.group` on `None`. -/
def openSrc (src : String) : Except Err Img :=
  match reSearchBase64 src with
  | none => .error .attributeErrorNoneGroup
  | some payload => openPayload payload

/-- Lines 152-154 of main.py for one record: read `Src`, capture the text
after `base64,`, base64-decode it and open the image bytes. -/
def openRecord (q : Json) : Except Err Img :=
  match jsonGetSrc q with
  | .error e => .error e
  | .ok src => openSrc src

/-- `margin = size // 8` (main.py line 148). -/
def computeMargin (size : Nat) : Nat := size / 8

/-- `margin_size = size + margin * 2` (main.py line 149). -/
def marginSize (size : Nat) : Nat := size + computeMargin size * 2

/-- The white fill of the canvas. -/
def whiteRgb : Rgb := (255, 255, 255)

/-- The canvas allocated by `save_qrcode` (main.py line 150):
`Image.new("RGB", (len(qrcode_list) * margin_size, margin_size), (255, 255, 255))`. -/
def initialCanvas (n size : Nat) : Img :=
  imageNew (n * marginSize size) (marginSize size) whiteRgb

/-- Observable actions of `save_qrcode`: each paste and the final file
write. -/
inductive SaveEvent where
  | paste (x y : Nat) (img : Img)
  | fileWrite (path : String) (img : Img)
deriving Repr, DecidableEq

/-- The `for i, qrcode in enumerate(qrcode_list)` loop of `save_qrcode`
(main.py lines 151-156): decode each record, resize it to `size` by `size`
and paste it at `(margin + i * margin_size, margin)`; the first failing
record aborts the whole loop. -/
def pasteLoop (size margin marginSz : Nat) :
    Nat → Img → List Json → Except Err (Img × List SaveEvent)
  | _, canvas, [] => .ok (canvas, [])
  | i, canvas, q :: rest =>
      match openRecord q with
      | .error e => .error e
      | .ok raw =>
          match pasteLoop size margin marginSz (i + 1)
              (canvas.paste (raw.resize size size) (margin + i * marginSz) margin)
              rest with
          | .error e => .error e
          | .ok (final, evs) =>
              .ok (final,
                .paste (margin + i * marginSz) margin (raw.resize size size) :: evs)

/-- `save_qrcode` (main.py lines 139-158): allocate the white canvas, run the
paste loop, and only after every record succeeded write the canvas to the
output path. -/
def save_qrcode (qrcode_list : List Json) (output : String) (size : Nat) :
    Except Err (Img × List SaveEvent) :=
  match pasteLoop size (computeMargin size) (marginSize size) 0
      (initialCanvas qrcode_list.length size) qrcode_list with
  | .error e => .error e
  | .ok (final, evs) => .ok (final, evs ++ [.fileWrite output final])

/-- Paths written by a `save_qrcode` outcome: none on failure, the output
path on success. -/
def savedFiles : Except Err (Img × List SaveEvent) → List String
  | .error _ => []
  | .ok (_, evs) => evs.filterMap (fun e =>
      match e with
      | .fileWrite p _ => some p
      | _ => none)

/-! ### Command line (`main`, main.py lines 161-217)

`argparse` converts `--codes`, `--password` and `--size` with Python's
`int()` and exits with status 2 on a conversion or choices failure; then the
output extension is checked and the network stages run in order. -/

/-- Python whitespace stripped by `int()`. -/
def pyWhitespace (c : Char) : Bool :=
  c == ' ' || c == '\t' || c == '\n' || c == '\r' || c == '\x0b' || c == '\x0c'

/-- An ASCII decimal digit. -/
def isDigitB (c : Char) : Bool := '0' ≤ c && c ≤ '9'

/-- Value of an ASCII decimal digit. -/
def digitVal (c : Char) : Nat := c.toNat - '0'.toNat

/-- Digits after the first one: single underscores are allowed between
digits, nothing else. -/
def pyDigitsRest (acc : Nat) : List Char → Option Nat
  | [] => some acc
  | '_' :: c :: rest =>
      if isDigitB c then pyDigitsRest (acc * 10 + digitVal c) rest else none
  | c :: rest =>
      if isDigitB c then pyDigitsRest (acc * 10 + digitVal c) rest else none

/-- A non-empty digit sequence with optional underscores between digits. -/
def pyDigits : List Char → Option Nat
  | [] => none
  | c :: rest => if isDigitB c then pyDigitsRest (digitVal c) rest else none

/-- Python `int(s)` on a decimal string: strip whitespace, optional sign,
then digits; `none` models the `ValueError` argparse turns into an exit. -/
def pyInt (s : String) : Option Int :=
  match (((s.data.dropWhile pyWhitespace).reverse.dropWhile pyWhitespace).reverse) with
  | '+' :: rest => (pyDigits rest).map (fun n => (n : Int))
  | '-' :: rest => (pyDigits rest).map (fun n => -(n : Int))
  | rest => (pyDigits rest).map (fun n => (n : Int))

/-- The raw command line: each flag's text, when the flag was passed. -/
structure Cli where
  codes : Option String
  username : Option String
  password : Option String
  output : Option String
  size : Option String

/-- The parsed arguments after `parser.parse_args()`. -/
structure Args where
  codes : Int
  username : Option String
  password : Option Int
  output : String
  size : Int

/-- The `argparse` step: `--codes` is an `int` restricted to
`range(1, 4)` with default 1, `--password` is declared `type=int` with
default `None`, `--size` is an `int` with default 200, `--output` defaults to
`./qrcode.png`; any conversion or choices failure exits (status 2). -/
def parseArgs (cli : Cli) : Option Args :=
  match (match cli.codes with | none => some 1 | some s => pyInt s) with
  | none => none
  | some codes =>
      if codes < 1 ∨ 3 < codes then none
      else
        match (match cli.password with
               | none => some none
               | some s => (pyInt s).map some) with
        | none => none
        | some password =>
            match (match cli.size with | none => some 200 | some s => pyInt s) with
            | none => none
            | some size =>
                some ⟨codes, cli.username, password,
                  (cli.output.getD "./qrcode.png"), size⟩

/-- Observable actions of `main`: process exit, interactive prompts, the
three HTTP requests and the output file write. -/
inductive MainEvent where
  | sysExit (code : Nat)
  | promptUsername
  | promptPassword
  | httpGetLogon
  | httpPostLogon
  | httpPostCreateQr
  | fileWrite (path : String)
deriving Repr, DecidableEq

/-- The behaviour of the remote host during one run: the three responses the
script would receive. -/
structure Remote where
  loginPage : LoginPageResponse
  login : LoginResponse
  qr : QrResponse

/-- The prompts issued for missing credentials (main.py lines 210-213). -/
def promptEvents (args : Args) : List MainEvent :=
  (match args.username with | none => [.promptUsername] | some _ => []) ++
    (match args.password with | none => [.promptPassword] | some _ => [])

/-- The event trace of `main` (main.py lines 161-217): parse the arguments
(exit 2 on failure), validate the output extension with the regex (exit 1 on
failure, before anything else), prompt for missing credentials, then run
`get_csrf`, `get_credentials`, `get_qrcode` and `save_qrcode` in order, where
any stage failure exits with status 1.  `--size` is used as a pixel count. -/
def mainEvents (cli : Cli) (remote : Remote) : List MainEvent :=
  match parseArgs cli with
  | none => [.sysExit 2]
  | some args =>
      if reMatchOutput args.output.data = false then [.sysExit 1]
      else
        promptEvents args ++ [.httpGetLogon] ++
        match get_csrf remote.loginPage with
        | .error _ => [.sysExit 1]
        | .ok (cookies, _) =>
            [.httpPostLogon] ++
            match get_credentials cookies remote.login with
            | .error _ => [.sysExit 1]
            | .ok _ =>
                [.httpPostCreateQr] ++
                match get_qrcode remote.qr with
                | .error _ => [.sysExit 1]
                | .ok (.arr items) =>
                    match save_qrcode items args.output args.size.toNat with
                    | .error _ => [.sysExit 1]
                    | .ok _ => [.fileWrite args.output, .sysExit 0]
                | .ok _ => [.sysExit 1]

/-! ### Round-trip construction and concrete test inputs -/

/-- The data-URI text before the base64 marker in the provider's images. -/
def dataUriPrefixChars : List Char :=
  ['d', 'a', 't', 'a', ':', 'i', 'm', 'a', 'g', 'e', '/', 'p', 'n', 'g', ';']

/-- Encode an image as the data URI the records embed:
`data:image/png;base64,` followed by the base64 of the image bytes. -/
def mkDataUriSrc (img : Img) : String :=
  String.mk (dataUriPrefixChars ++ markerChars ++ b64encode (encodeImage img))

/-- A record holding the data URI of `img` in its `Src` field. -/
def mkDataUriRecord (img : Img) : Json := .obj [("Src", .str (mkDataUriSrc img))]

/-- A concrete 1 by 1 image used by witnesses. -/
def sampleImg : Img := ⟨1, 1, [[(7, 8, 9)]]⟩

/-- A record whose `Src` lacks the `base64,` marker. -/
def badRecord : Json := .obj [("Src", .str "no-marker")]

/-- A remote whose login-page request fails; witnesses only need the trace up
to the first request. -/
def remoteStub : Remote := ⟨⟨500, [], []⟩, ⟨200, []⟩, ⟨500, none⟩⟩

/-- A command line whose output path ends in a newline after `.png`. -/
def cliNewlineOutput : Cli :=
  ⟨none, some "user", some "123", some "qrcode.png\n", none⟩

/-- A command line with a non-numeric password. -/
def cliBadPassword : Cli := ⟨none, none, some "hunter2", none, none⟩

/-- A command line with a `.txt` output path. -/
def cliBadExt : Cli := ⟨none, some "user", some "123", some "output.txt", none⟩

/-- The parsed form of `cliBadExt`. -/
def argsBadExt : Args := ⟨1, some "user", some 123, "output.txt", 200⟩

/-! ### Helper lemmas -/

theorem lookup_dictSet_self (d : CookieJar) (k v : String) :
    List.lookup k (dictSet d k v) = some v := by
  induction d with
  | nil => simp [dictSet, List.lookup]
  | cons p rest ih =>
    obtain ⟨k', v'⟩ := p
    by_cases h : k' = k
    · subst h
      simp [dictSet, List.lookup]
    · simp only [dictSet, if_neg h, List.lookup]
      have : (k == k') = false := by
        simp [beq_iff_eq]
        exact fun hk => h hk.symm
      rw [this]
      exact ih

theorem lookup_dictSet_other (d : CookieJar) (k v k' : String) (h : k' ≠ k) :
    List.lookup k' (dictSet d k v) = List.lookup k' d := by
  have hbeq : (k' == k) = false := by
    simp [beq_iff_eq]
    exact h
  induction d with
  | nil => simp [dictSet, List.lookup, hbeq]
  | cons p rest ih =>
    obtain ⟨k₀, v₀⟩ := p
    by_cases h0 : k₀ = k
    · subst h0
      simp [dictSet, List.lookup, hbeq]
    · simp only [dictSet, if_neg h0, List.lookup]
      cases hk : (k' == k₀) <;> simp [ih]

theorem getD_replicate_lt {α : Type} (n : Nat) (a d : α) (i : Nat) (h : i < n) :
    (List.replicate n a).getD i d = a := by
  rw [List.getD_eq_getElem?_getD, List.getElem?_replicate, if_pos h]
  rfl

theorem imageNew_getPix (w h : Nat) (c : Rgb) (x y : Nat) (hx : x < w) (hy : y < h) :
    (imageNew w h c).getPix x y = c := by
  unfold imageNew Img.getPix
  simp only
  rw [getD_replicate_lt _ _ _ _ hy, getD_replicate_lt _ _ _ _ hx]

/-! ### Claim C1 -/

/-- C1: `get_credentials` succeeds iff the login response has HTTP status 302
and carries the `.ASPXAUTH` cookie; every other combination of status and
cookie presence fails with an Invalid-Credentials (`PermissionError`)
error. -/
theorem get_credentials_success_iff (cookies : CookieJar) (login : LoginResponse) :
    (isOkB (get_credentials cookies login) =
      ((login.status == 302) &&
        (List.lookup authCookieName login.cookies).isSome))
    ∧ (isOkB (get_credentials cookies login) = false →
        ∃ msg, get_credentials cookies login = .error (.permissionError msg) ∧
          isInvalidCredentials (.permissionError msg) = true) := by
  unfold get_credentials
  by_cases h : login.status = 302
  · rw [if_neg (by simp [h])]
    cases hl : List.lookup authCookieName login.cookies with
    | none =>
      refine ⟨by simp [isOkB, h, hl], ?_⟩
      intro _
      exact ⟨"Error: invalid credentials", rfl, by decide⟩
    | some v => exact ⟨by simp [isOkB, h, hl], by simp [isOkB]⟩
  · rw [if_pos h]
    refine ⟨by simp [isOkB, h], ?_⟩
    intro _
    exact ⟨"Error: Invalid credentials", rfl, by decide⟩

/-- Witness for C1 at two concrete responses: status 200 with the cookie
present is rejected as invalid credentials, status 302 with the cookie
present is accepted. -/
theorem get_credentials_success_iff_witness :
    (isOkB (get_credentials [] ⟨200, [(".ASPXAUTH", "tok")]⟩) = false ∧
      ∃ msg, get_credentials [] ⟨200, [(".ASPXAUTH", "tok")]⟩ =
          .error (.permissionError msg) ∧
        isInvalidCredentials (.permissionError msg) = true)
    ∧ isOkB (get_credentials [] ⟨302, [(".ASPXAUTH", "tok")]⟩) = true := by
  refine ⟨⟨by decide, ?_⟩, ?_⟩
  · exact (get_credentials_success_iff [] ⟨200, [(".ASPXAUTH", "tok")]⟩).2 (by decide)
  · exact ((get_credentials_success_iff [] ⟨302, [(".ASPXAUTH", "tok")]⟩).1).trans
      (by decide)

/-! ### Claim C10 -/

/-- C10: on success, `get_credentials` returns the input cookie jar with the
single `.ASPXAUTH` entry set to the value from the login response; the lookup
of every other cookie name is unchanged. -/
theorem get_credentials_frame (cookies : CookieJar) (login : LoginResponse)
    (out : CookieJar) (h : get_credentials cookies login = .ok out) :
    ∃ v, List.lookup authCookieName login.cookies = some v ∧
      List.lookup authCookieName out = some v ∧
      ∀ k, k ≠ authCookieName → List.lookup k out = List.lookup k cookies := by
  unfold get_credentials at h
  by_cases hs : login.status = 302
  · rw [if_neg (by simp [hs])] at h
    cases hl : List.lookup authCookieName login.cookies with
    | none => rw [hl] at h; exact absurd h (by simp)
    | some v =>
      rw [hl] at h
      refine ⟨v, rfl, ?_, ?_⟩
      · rw [← Except.ok.inj h]
        exact lookup_dictSet_self cookies authCookieName v
      · intro k hk
        rw [← Except.ok.inj h]
        exact lookup_dictSet_other cookies authCookieName v k hk
  · rw [if_pos hs] at h
    exact absurd h (by simp)

/-- Witness for C10: a concrete successful login adds `.ASPXAUTH` and leaves
the existing `session` cookie unchanged. -/
theorem get_credentials_frame_witness :
    get_credentials [("session", "s1")] ⟨302, [(".ASPXAUTH", "tok")]⟩ =
      .ok [("session", "s1"), (".ASPXAUTH", "tok")] ∧
    ∃ v, List.lookup authCookieName [(".ASPXAUTH", "tok")] = some v ∧
      List.lookup authCookieName [("session", "s1"), (".ASPXAUTH", "tok")] = some v ∧
      ∀ k, k ≠ authCookieName →
        List.lookup k [("session", "s1"), (".ASPXAUTH", "tok")] =
          List.lookup k [("session", "s1")] := by
  refine ⟨rfl, ?_⟩
  exact get_credentials_frame [("session", "s1")] ⟨302, [(".ASPXAUTH", "tok")]⟩
    [("session", "s1"), (".ASPXAUTH", "tok")] rfl

/-! ### Claim C5 -/

/-- C5: `get_qrcode` on a status-200 response whose body parsed as a JSON
array returns exactly that array (so an array of length 2 yields a list of
length 2); on any non-success status it fails with a `RequestException`
whose message carries the status code. -/
theorem get_qrcode_spec (resp : QrResponse) :
    (∀ xs, resp.status = 200 → resp.json = some (.arr xs) →
        get_qrcode resp = .ok (.arr xs))
    ∧ (isSuccessStatus resp.status = false →
        get_qrcode resp = .error (.requestException
          ("Error " ++ toString resp.status ++ ": can't get the qr-code"))) := by
  constructor
  · intro xs hs hj
    unfold get_qrcode
    rw [if_neg (by simp [hs]), hj]
  · intro hns
    unfold get_qrcode
    rw [if_pos ?_]
    intro h200
    rw [h200] at hns
    exact absurd hns (by decide)

/-- Witness for C5: a 200 response with a two-element JSON array is returned
unchanged, and a 500 response fails with the status in the message. -/
theorem get_qrcode_spec_witness :
    get_qrcode ⟨200, some (.arr [.null, .null])⟩ = .ok (.arr [.null, .null]) ∧
    get_qrcode ⟨500, none⟩ =
      .error (.requestException "Error 500: can't get the qr-code") := by
  constructor
  · exact (get_qrcode_spec ⟨200, some (.arr [.null, .null])⟩).1 [.null, .null] rfl rfl
  · exact (get_qrcode_spec ⟨500, none⟩).2 (by decide)

/-! ### Claim C3 -/

/-- C3: for a login page whose HTML contains an input named
`__RequestVerificationToken`, `get_csrf` returns exactly that field's value
together with the response cookies; when no input has that name, it fails
(the source subscripts `None`, the Parse failure for the missing token). -/
theorem get_csrf_token_extraction (resp : LoginPageResponse)
    (h200 : resp.status = 200) :
    (∀ nm v, resp.inputs.find? (fun p => p.1 == tokenFieldName) = some (nm, some v) →
        get_csrf resp = .ok (resp.cookies, v))
    ∧ ((∀ p ∈ resp.inputs, p.1 ≠ tokenFieldName) →
        get_csrf resp = .error .typeErrorNone) := by
  unfold get_csrf
  rw [if_neg (by simp [h200])]
  constructor
  · intro nm v hf
    rw [hf]
  · intro hall
    have hnone : resp.inputs.find? (fun p => p.1 == tokenFieldName) = none := by
      rw [List.find?_eq_none]
      intro p hp
      simpa [beq_iff_eq] using hall p hp
    rw [hnone]

/-- Witness for C3 at a concrete page: the token field's value is extracted,
and a page with only other fields fails. -/
theorem get_csrf_token_extraction_witness :
    get_csrf ⟨200, [("UserName", some "u"),
        ("__RequestVerificationToken", some "tok123")], [("c", "1")]⟩ =
      .ok ([("c", "1")], "tok123") ∧
    get_csrf ⟨200, [("UserName", some "u")], []⟩ = .error .typeErrorNone := by
  constructor
  · exact (get_csrf_token_extraction ⟨200, [("UserName", some "u"),
        ("__RequestVerificationToken", some "tok123")], [("c", "1")]⟩ rfl).1
      "__RequestVerificationToken" "tok123" (by decide)
  · exact (get_csrf_token_extraction ⟨200, [("UserName", some "u")], []⟩ rfl).2
      (by decide)

/-! ### Claim C2 -/

/-- C2 counterexample: for 3 records and size 100 the canvas allocated by
`save_qrcode` measures 372 by 124 (margin 12, cell 124), not 375 by 125 as
the claim's example states. -/
theorem initialCanvas_example_dims :
    (initialCanvas 3 100).width = 372 ∧ (initialCanvas 3 100).height = 124 ∧
    ¬((initialCanvas 3 100).width = 375 ∧ (initialCanvas 3 100).height = 125) := by
  refine ⟨rfl, rfl, ?_⟩
  intro h
  exact absurd h.1 (by decide)

/-- C2 (amended example): for `n ≥ 1` records and target size `s`,
`save_qrcode` computes margin `s / 8` by truncating division and allocates a
white canvas of width `n * (s + 2 * (s / 8))` and height `s + 2 * (s / 8)`,
so the width is an exact multiple of the cell width; for `n = 3`, `s = 100`
this gives margin 12 and dimensions 372 by 124. -/
theorem save_qrcode_canvas_dims (n s : Nat) (hn : 1 ≤ n) :
    computeMargin s = s / 8
    ∧ (initialCanvas n s).width = n * (s + 2 * (s / 8))
    ∧ (initialCanvas n s).height = s + 2 * (s / 8)
    ∧ (∀ x y, x < (initialCanvas n s).width → y < (initialCanvas n s).height →
        (initialCanvas n s).getPix x y = whiteRgb)
    ∧ (s + 2 * (s / 8)) ∣ (initialCanvas n s).width := by
  have hms : marginSize s = s + 2 * (s / 8) := by
    unfold marginSize computeMargin
    omega
  refine ⟨rfl, ?_, ?_, ?_, ?_⟩
  · show n * marginSize s = n * (s + 2 * (s / 8))
    rw [hms]
  · exact hms
  · intro x y hx hy
    exact imageNew_getPix _ _ _ x y hx hy
  · show (s + 2 * (s / 8)) ∣ n * marginSize s
    rw [hms]
    exact dvd_mul_left _ n

/-- Witness for C2's amended statement at `n = 3`, `s = 100`. -/
theorem save_qrcode_canvas_dims_witness :
    1 ≤ 3 ∧
    (computeMargin 100 = 100 / 8
      ∧ (initialCanvas 3 100).width = 3 * (100 + 2 * (100 / 8))
      ∧ (initialCanvas 3 100).height = 100 + 2 * (100 / 8)
      ∧ (∀ x y, x < (initialCanvas 3 100).width → y < (initialCanvas 3 100).height →
          (initialCanvas 3 100).getPix x y = whiteRgb)
      ∧ (100 + 2 * (100 / 8)) ∣ (initialCanvas 3 100).width) :=
  ⟨by decide, save_qrcode_canvas_dims 3 100 (by decide)⟩

/-! ### Claim C9 -/

/-- C9: the password flag (short form -p, long form --password) is declared
with integer type, so argument
parsing accepts it only when Python's `int()` accepts it, and a non-numeric
password exits (status 2, `argparse`) before any prompt or network call. -/
theorem password_flag_int_typed (cli : Cli) (remote : Remote) (s : String)
    (hp : cli.password = some s) :
    (pyInt s = none → mainEvents cli remote = [.sysExit 2])
    ∧ (∀ args, parseArgs cli = some args →
        ∃ n, pyInt s = some n ∧ args.password = some n) := by
  constructor
  · intro hnone
    have hpa : parseArgs cli = none := by
      unfold parseArgs
      rw [hp]
      cases hcodes : (match cli.codes with | none => some 1 | some str => pyInt str) with
      | none => rfl
      | some codes =>
        by_cases hrange : codes < 1 ∨ 3 < codes
        · simp [hrange]
        · simp [hrange, hnone]
    simp [mainEvents, hpa]
  · intro args h
    unfold parseArgs at h
    rw [hp] at h
    cases hcodes : (match cli.codes with | none => some 1 | some str => pyInt str) with
    | none => rw [hcodes] at h; exact absurd h (by simp)
    | some codes =>
      rw [hcodes] at h
      by_cases hrange : codes < 1 ∨ 3 < codes
      · simp [hrange] at h
      · simp [hrange] at h
        cases hpy : pyInt s with
        | none => simp [hpy] at h
        | some n =>
          cases hsize : (match cli.size with | none => some 200 | some str => pyInt str) with
          | none => simp [hpy, hsize] at h
          | some sz =>
            simp [hpy, hsize] at h
            exact ⟨n, rfl, by rw [← h]⟩

/-- Witness for C9: password `hunter2` makes the run exit immediately with
status 2 and no prompt or request. -/
theorem password_flag_int_typed_witness :
    cliBadPassword.password = some "hunter2" ∧ pyInt "hunter2" = none ∧
    mainEvents cliBadPassword remoteStub = [.sysExit 2] :=
  ⟨rfl, rfl,
    (password_flag_int_typed cliBadPassword remoteStub "hunter2" rfl).1 rfl⟩

/-! ### Claim C7 -/

theorem extAtEnd_no_newline (rest : List Char) (h : ∀ c ∈ rest, c ≠ '\n') :
    extAtEnd rest = allowedExts.any (fun e => rest == e) := by
  have key : ∀ e : List Char, (rest == e ++ ['\n']) = false := by
    intro e
    rw [beq_eq_false_iff_ne]
    intro heq
    exact h '\n' (heq ▸ (by simp)) rfl
  simp [extAtEnd, key]

theorem reMatchOutput_eq_endsWith (cs : List Char) (h : ∀ c ∈ cs, c ≠ '\n') :
    reMatchOutput cs = allowedExts.any (fun e => ('.' :: e).isSuffixOf cs) := by
  induction cs with
  | nil => decide
  | cons c rest ih =>
    have hc : c ≠ '\n' := h c (by simp)
    have hrest : ∀ x ∈ rest, x ≠ '\n' := fun x hx => h x (by simp [hx])
    rw [reMatchOutput, extAtEnd_no_newline rest hrest, ih hrest]
    have hcne : (c != '\n') = true := by simp [hc]
    rw [hcne, Bool.true_and]
    apply Bool.eq_iff_iff.mpr
    simp only [Bool.or_eq_true, Bool.and_eq_true, List.any_eq_true, beq_iff_eq,
      List.isSuffixOf_iff_suffix, List.suffix_cons_iff, List.cons.injEq]
    constructor
    · rintro (⟨hcd, e, he, hre⟩ | ⟨e, he, hsfx⟩)
      · exact ⟨e, he, Or.inl ⟨hcd.symm, hre.symm⟩⟩
      · exact ⟨e, he, Or.inr hsfx⟩
    · rintro ⟨e, he, ⟨hdc, her⟩ | hsfx⟩
      · exact Or.inl ⟨hdc.symm, e, he, her.symm⟩
      · exact Or.inr ⟨e, he, hsfx⟩

/-- C7 counterexample: the output path `qrcode.png\n` does not end in any of
the four extensions, yet the regex accepts it and the run issues the
login-page request instead of exiting first; so the claim's universal
rejection of such paths fails on the code. -/
theorem output_check_newline_counterexample :
    specEndsWithExt "qrcode.png\n" = false ∧
    reMatchOutput "qrcode.png\n".data = true ∧
    mainEvents cliNewlineOutput remoteStub = [.httpGetLogon, .sysExit 1] ∧
    MainEvent.httpGetLogon ∈ mainEvents cliNewlineOutput remoteStub := by
  refine ⟨by decide, by decide, rfl, ?_⟩
  rw [show mainEvents cliNewlineOutput remoteStub = [.httpGetLogon, .sysExit 1] from rfl]
  simp

/-- C7 (amended): for every invocation whose output path contains no newline
character, the path is accepted by the code's check exactly when it ends in
`.png`, `.jpg`, `.jpeg` or `.gif`; a rejected path makes the run exit with
status 1 as its only action (so before any prompt or network call), and an
accepted path leads to the login-page request being issued.  Paths with an
embedded newline can differ (see the counterexample). -/
theorem output_check_amended (cli : Cli) (remote : Remote) (args : Args)
    (hpa : parseArgs cli = some args)
    (hnl : ∀ c ∈ args.output.data, c ≠ '\n') :
    (reMatchOutput args.output.data = specEndsWithExt args.output)
    ∧ (specEndsWithExt args.output = false →
        mainEvents cli remote = [.sysExit 1])
    ∧ (specEndsWithExt args.output = true →
        MainEvent.httpGetLogon ∈ mainEvents cli remote) := by
  have heq : reMatchOutput args.output.data = specEndsWithExt args.output :=
    reMatchOutput_eq_endsWith args.output.data hnl
  refine ⟨heq, ?_, ?_⟩
  · intro hfalse
    have hre : reMatchOutput args.output.data = false := heq.trans hfalse
    simp [mainEvents, hpa, hre]
  · intro htrue
    have hre : reMatchOutput args.output.data = true := heq.trans htrue
    simp [mainEvents, hpa, hre, List.mem_append]

/-- Witness for C7's amended statement: `output.txt` (newline-free) is
rejected with exit status 1 and nothing else happens. -/
theorem output_check_amended_witness :
    parseArgs cliBadExt = some argsBadExt ∧
    (∀ c ∈ argsBadExt.output.data, c ≠ '\n') ∧
    specEndsWithExt argsBadExt.output = false ∧
    mainEvents cliBadExt remoteStub = [.sysExit 1] := by
  refine ⟨rfl, by decide, by decide, ?_⟩
  exact (output_check_amended cliBadExt remoteStub argsBadExt rfl (by decide)).2.1
    (by decide)

/-! ### Base64 round-trip lemmas -/

theorem charToIdx_idxToChar : ∀ i, i < 64 → charToIdx (idxToChar i) = some i := by
  decide

theorem idxToChar_ne_pad : ∀ i, i < 64 → idxToChar i ≠ '=' := by
  decide

theorem idxToChar_keep : ∀ i, i < 64 →
    (b64Chars.contains (idxToChar i) || idxToChar i == '=') = true ∧
    (idxToChar i != '\n') = true := by
  decide

theorem b64encode_keep (bs : List Nat) (h : ∀ b ∈ bs, b < 256) :
    ∀ c ∈ b64encode bs,
      (b64Chars.contains c || c == '=') = true ∧ (c != '\n') = true := by
  induction bs using b64encode.induct with
  | case1 => intro c hc; simp [b64encode] at hc
  | case2 a =>
    have ha : a < 256 := h a (by simp)
    intro c hc
    simp only [b64encode, List.mem_cons, List.not_mem_nil, or_false] at hc
    rcases hc with rfl | rfl | rfl | rfl
    · exact idxToChar_keep _ (by omega)
    · exact idxToChar_keep _ (by omega)
    · exact ⟨by decide, by decide⟩
    · exact ⟨by decide, by decide⟩
  | case3 a b =>
    have ha : a < 256 := h a (by simp)
    have hb : b < 256 := h b (by simp)
    intro c hc
    simp only [b64encode, List.mem_cons, List.not_mem_nil, or_false] at hc
    rcases hc with rfl | rfl | rfl | rfl
    · exact idxToChar_keep _ (by omega)
    · exact idxToChar_keep _ (by omega)
    · exact idxToChar_keep _ (by omega)
    · exact ⟨by decide, by decide⟩
  | case4 a b c rest ih =>
    have ha : a < 256 := h a (by simp)
    have hb : b < 256 := h b (by simp)
    have hc256 : c < 256 := h c (by simp)
    have hrest : ∀ x ∈ rest, x < 256 := fun x hx => h x (by simp [hx])
    intro d hd
    simp only [b64encode, List.mem_cons] at hd
    rcases hd with rfl | rfl | rfl | rfl | hd
    · exact idxToChar_keep _ (by omega)
    · exact idxToChar_keep _ (by omega)
    · exact idxToChar_keep _ (by omega)
    · exact idxToChar_keep _ (by omega)
    · exact ih hrest d hd

theorem b64decodeGroups_encode (bs : List Nat) (h : ∀ b ∈ bs, b < 256) :
    b64decodeGroups (b64encode bs) = some bs := by
  induction bs using b64encode.induct with
  | case1 => rfl
  | case2 a =>
    have ha : a < 256 := h a (by simp)
    simp [b64encode, b64decodeGroups, charToIdx_idxToChar _ (by omega : a / 4 < 64),
      charToIdx_idxToChar _ (by omega : a % 4 * 16 < 64)]
    omega
  | case3 a b =>
    have ha : a < 256 := h a (by simp)
    have hb : b < 256 := h b (by simp)
    simp [b64encode, b64decodeGroups, charToIdx_idxToChar _ (by omega : a / 4 < 64),
      charToIdx_idxToChar _ (by omega : a % 4 * 16 + b / 16 < 64),
      charToIdx_idxToChar _ (by omega : b % 16 * 4 < 64),
      idxToChar_ne_pad _ (by omega : b % 16 * 4 < 64)]
    omega
  | case4 a b c rest ih =>
    have ha : a < 256 := h a (by simp)
    have hb : b < 256 := h b (by simp)
    have hc : c < 256 := h c (by simp)
    have hrest : ∀ x ∈ rest, x < 256 := fun x hx => h x (by simp [hx])
    simp [b64encode, b64decodeGroups, charToIdx_idxToChar _ (by omega : a / 4 < 64),
      charToIdx_idxToChar _ (by omega : a % 4 * 16 + b / 16 < 64),
      charToIdx_idxToChar _ (by omega : b % 16 * 4 + c / 64 < 64),
      charToIdx_idxToChar _ (by omega : c % 64 < 64),
      idxToChar_ne_pad _ (by omega : b % 16 * 4 + c / 64 < 64),
      idxToChar_ne_pad _ (by omega : c % 64 < 64), ih hrest]
    omega

theorem b64decodePy_encode (bs : List Nat) (h : ∀ b ∈ bs, b < 256) :
    b64decodePy (b64encode bs) = some bs := by
  unfold b64decodePy
  rw [List.filter_eq_self.mpr (fun c hc => (b64encode_keep bs h c hc).1)]
  exact b64decodeGroups_encode bs h

theorem takeWhile_b64encode (bs : List Nat) (h : ∀ b ∈ bs, b < 256) :
    (b64encode bs).takeWhile (fun c => c != '\n') = b64encode bs :=
  List.takeWhile_eq_self_iff.mpr (fun c hc => (b64encode_keep bs h c hc).2)

/-! ### Image codec round-trip lemmas -/

theorem encodeNat_lt (n : Nat) : ∀ b ∈ encodeNat n, b < 256 := by
  intro b hb
  simp [encodeNat, List.mem_append, List.mem_replicate] at hb
  omega

theorem imgValid_parts (img : Img) (hv : img.valid = true) :
    img.pixels.length = img.height ∧
    ∀ row ∈ img.pixels, row.length = img.width ∧
      ∀ p ∈ row, p.1 < 256 ∧ p.2.1 < 256 ∧ p.2.2 < 256 := by
  unfold Img.valid at hv
  simp only [Bool.and_eq_true, List.all_eq_true, beq_iff_eq,
    decide_eq_true_eq] at hv
  refine ⟨hv.1, fun row hr => ⟨(hv.2 row hr).1, fun p hp => ?_⟩⟩
  have h3 := (hv.2 row hr).2 p hp
  exact ⟨h3.1.1, h3.1.2, h3.2⟩

theorem encodeRow_lt (row : List Rgb)
    (h : ∀ p ∈ row, p.1 < 256 ∧ p.2.1 < 256 ∧ p.2.2 < 256) :
    ∀ b ∈ encodeRow row, b < 256 := by
  induction row with
  | nil => intro b hb; simp [encodeRow] at hb
  | cons p ps ih =>
    intro b hb
    have hp := h p (by simp)
    simp only [encodeRow, List.mem_cons] at hb
    rcases hb with rfl | rfl | rfl | hb
    · exact hp.1
    · exact hp.2.1
    · exact hp.2.2
    · exact ih (fun q hq => h q (by simp [hq])) b hb

theorem encodeRows_lt (rows : List (List Rgb))
    (h : ∀ row ∈ rows, ∀ p ∈ row, p.1 < 256 ∧ p.2.1 < 256 ∧ p.2.2 < 256) :
    ∀ b ∈ encodeRows rows, b < 256 := by
  induction rows with
  | nil => intro b hb; simp [encodeRows] at hb
  | cons r rs ih =>
    intro b hb
    simp only [encodeRows, List.mem_append] at hb
    rcases hb with hb | hb
    · exact encodeRow_lt r (h r (by simp)) b hb
    · exact ih (fun row hr => h row (by simp [hr])) b hb

theorem encodeImage_lt (img : Img) (hv : img.valid = true) :
    ∀ b ∈ encodeImage img, b < 256 := by
  obtain ⟨-, hrows⟩ := imgValid_parts img hv
  intro b hb
  simp only [encodeImage, List.mem_append] at hb
  rcases hb with (hb | hb) | hb
  · exact encodeNat_lt _ b hb
  · exact encodeNat_lt _ b hb
  · exact encodeRows_lt _ (fun row hr => (hrows row hr).2) b hb

theorem decodeNat_encodeNat (n : Nat) (rest : List Nat) :
    decodeNat (encodeNat n ++ rest) = some (n, rest) := by
  induction n with
  | zero => rfl
  | succ n ih =>
    show decodeNat ((List.replicate (n + 1) 1 ++ [0]) ++ rest) = _
    rw [List.replicate_succ, List.cons_append, List.cons_append]
    show (match decodeNat ((List.replicate n 1 ++ [0]) ++ rest) with
      | some (m, r) => some (m + 1, r) | none => none) = _
    rw [show (List.replicate n 1 ++ [0]) ++ rest = encodeNat n ++ rest from rfl, ih]

theorem decodeRow_encodeRow (row : List Rgb) (rest : List Nat) :
    decodeRow row.length (encodeRow row ++ rest) = some (row, rest) := by
  induction row with
  | nil => rfl
  | cons p ps ih =>
    obtain ⟨r, g, b⟩ := p
    simp [encodeRow, decodeRow, ih]

theorem decodeRows_encodeRows (rows : List (List Rgb)) (w : Nat)
    (hw : ∀ r ∈ rows, r.length = w) (rest : List Nat) :
    decodeRows rows.length w (encodeRows rows ++ rest) = some (rows, rest) := by
  induction rows with
  | nil => rfl
  | cons r rs ih =>
    have hr : r.length = w := hw r (by simp)
    have hwrs : ∀ q ∈ rs, q.length = w := fun q hq => hw q (by simp [hq])
    have hdr : decodeRow w (encodeRow r ++ (encodeRows rs ++ rest)) =
        some (r, encodeRows rs ++ rest) := by
      rw [← hr]
      exact decodeRow_encodeRow r _
    show decodeRows (rs.length + 1) w ((encodeRow r ++ encodeRows rs) ++ rest) = _
    rw [List.append_assoc]
    simp only [decodeRows, hdr, ih hwrs]

theorem decodeImage_encodeImage (img : Img) (hv : img.valid = true) :
    decodeImage (encodeImage img) = some img := by
  obtain ⟨hlen, hrows⟩ := imgValid_parts img hv
  obtain ⟨w, h, rows⟩ := img
  simp only at hlen hrows
  have hdrs : decodeRows h w (encodeRows rows) = some (rows, []) := by
    rw [show encodeRows rows = encodeRows rows ++ [] from (List.append_nil _).symm,
      ← hlen]
    exact decodeRows_encodeRows rows w (fun r hr => (hrows r hr).1) []
  unfold decodeImage encodeImage
  simp only
  rw [List.append_assoc]
  simp [decodeNat_encodeNat, hdrs]

/-! ### Grid, resize and paste lemmas -/

theorem map_range_getD {α : Type} (l : List α) (d : α) :
    (List.range l.length).map (fun x => l.getD x d) = l := by
  induction l with
  | nil => rfl
  | cons a as ih =>
    rw [List.length_cons, List.range_succ_eq_map, List.map_cons, List.map_map]
    have hcomp : ((fun x => (a :: as).getD x d) ∘ Nat.succ) =
        (fun x => as.getD x d) := by
      funext x
      rfl
    rw [hcomp, ih]
    rfl

theorem grid_getPix (w h : Nat) (f : Nat → Nat → Rgb) (x y : Nat)
    (hx : x < w) (hy : y < h) :
    (Img.mk w h ((List.range h).map (fun j => (List.range w).map (fun i => f i j)))).getPix
      x y = f x y := by
  unfold Img.getPix
  simp only [List.getD_eq_getElem?_getD, List.getElem?_map, List.getElem?_range hy,
    List.getElem?_range hx, Option.map_some', Option.getD_some]

theorem grid_reconstruct (w : Nat) (rows : List (List Rgb))
    (hrow : ∀ r ∈ rows, r.length = w) :
    (List.range rows.length).map (fun y => (List.range w).map (fun x =>
      (rows.getD y []).getD x (0, 0, 0))) = rows := by
  induction rows with
  | nil => rfl
  | cons r rs ih =>
    rw [List.length_cons, List.range_succ_eq_map, List.map_cons, List.map_map]
    have hcomp : ((fun y => (List.range w).map (fun x =>
        ((r :: rs).getD y []).getD x (0, 0, 0))) ∘ Nat.succ) =
        (fun y => (List.range w).map (fun x =>
        (rs.getD y []).getD x (0, 0, 0))) := by
      funext y
      rfl
    rw [hcomp, ih (fun q hq => hrow q (by simp [hq]))]
    have hhead : (List.range w).map (fun x =>
        ((r :: rs).getD 0 []).getD x (0, 0, 0)) = r := by
      show (List.range w).map (fun x => r.getD x (0, 0, 0)) = r
      rw [← hrow r (by simp)]
      exact map_range_getD r (0, 0, 0)
    rw [hhead]

theorem resize_self (img : Img) (hv : img.valid = true) :
    img.resize img.width img.height = img := by
  obtain ⟨hlen, hrows⟩ := imgValid_parts img hv
  obtain ⟨w, h, rows⟩ := img
  simp only at hlen hrows
  unfold Img.resize
  simp only [Img.mk.injEq, true_and]
  have hstep : (List.range h).map (fun y => (List.range w).map (fun x =>
      (Img.mk w h rows).getPix (x * w / w) (y * h / h))) =
      (List.range h).map (fun y => (List.range w).map (fun x =>
      (rows.getD y []).getD x (0, 0, 0))) := by
    apply List.map_congr_left
    intro y hy
    apply List.map_congr_left
    intro x hx
    rw [Nat.mul_div_cancel x (by { rw [List.mem_range] at hx; omega } : 0 < w),
      Nat.mul_div_cancel y (by { rw [List.mem_range] at hy; omega } : 0 < h)]
    rfl
  rw [hstep, ← hlen]
  exact grid_reconstruct w rows (fun r hr => (hrows r hr).1)

theorem paste_getPix (canvas img : Img) (ox oy x y : Nat)
    (hx : x < canvas.width) (hy : y < canvas.height) :
    (canvas.paste img ox oy).getPix x y =
      if ox ≤ x ∧ x < ox + img.width ∧ oy ≤ y ∧ y < oy + img.height then
        img.getPix (x - ox) (y - oy)
      else canvas.getPix x y := by
  unfold Img.paste
  exact grid_getPix canvas.width canvas.height _ x y hx hy

/-! ### Data-URI extraction and record round trip -/

theorem findSub_dataUri (payload : List Char) :
    findSub markerChars (dataUriPrefixChars ++ markerChars ++ payload) =
      some payload := rfl

theorem reSearch_mkDataUri (img : Img) (hv : img.valid = true) :
    reSearchBase64 (mkDataUriSrc img) = some (b64encode (encodeImage img)) := by
  unfold reSearchBase64 mkDataUriSrc
  rw [show (String.mk (dataUriPrefixChars ++ markerChars ++
      b64encode (encodeImage img))).data =
      dataUriPrefixChars ++ markerChars ++ b64encode (encodeImage img) from rfl]
  rw [findSub_dataUri, Option.map_some']
  rw [takeWhile_b64encode _ (encodeImage_lt img hv)]

theorem openRecord_mkDataUri (img : Img) (hv : img.valid = true) :
    openRecord (mkDataUriRecord img) = .ok img := by
  have h1 : openRecord (mkDataUriRecord img) = openSrc (mkDataUriSrc img) := rfl
  rw [h1]
  unfold openSrc
  rw [reSearch_mkDataUri img hv]
  show openPayload (b64encode (encodeImage img)) = _
  unfold openPayload
  rw [b64decodePy_encode _ (encodeImage_lt img hv)]
  show (match decodeImage (encodeImage img) with
    | none => Except.error Err.unidentifiedImageError
    | some i => Except.ok i) = _
  rw [decodeImage_encodeImage img hv]

/-! ### Paste-loop lemmas -/

theorem pasteLoop_error_of_bad (size margin ms : Nat) (rs : List Json) :
    ∀ (i0 : Nat) (canvas : Img), (∃ q ∈ rs, isOkB (openRecord q) = false) →
      ∃ e, pasteLoop size margin ms i0 canvas rs = .error e := by
  induction rs with
  | nil =>
    rintro i0 canvas ⟨q, hq, -⟩
    simp at hq
  | cons q rest ih =>
    rintro i0 canvas ⟨p, hp, hbad⟩
    cases ho : openRecord q with
    | error e => exact ⟨e, by simp [pasteLoop, ho]⟩
    | ok raw =>
      have hpr : p ∈ rest := by
        rcases List.mem_cons.mp hp with rfl | hmem
        · rw [ho] at hbad
          simp [isOkB] at hbad
        · exact hmem
      obtain ⟨e, he⟩ := ih (i0 + 1)
        (canvas.paste (raw.resize size size) (margin + i0 * ms) margin)
        ⟨p, hpr, hbad⟩
      exact ⟨e, by simp [pasteLoop, ho, he]⟩

theorem pasteLoop_first_bad (size margin ms : Nat) (pre : List Json) :
    ∀ (q : Json) (post : List Json) (i0 : Nat) (canvas : Img),
      (∀ p ∈ pre, isOkB (openRecord p) = true) →
      openRecord q = .error .attributeErrorNoneGroup →
      pasteLoop size margin ms i0 canvas (pre ++ q :: post) =
        .error .attributeErrorNoneGroup := by
  induction pre with
  | nil =>
    intro q post i0 canvas _ hq
    simp [pasteLoop, hq]
  | cons p pre' ih =>
    intro q post i0 canvas hok hq
    have hp : isOkB (openRecord p) = true := hok p (by simp)
    cases ho : openRecord p with
    | error e =>
      rw [ho] at hp
      simp [isOkB] at hp
    | ok raw =>
      have hrec := ih q post (i0 + 1)
        (canvas.paste (raw.resize size size) (margin + i0 * ms) margin)
        (fun x hx => hok x (by simp [hx])) hq
      simp [pasteLoop, ho, hrec]

theorem pasteLoop_events (size margin ms : Nat) (rs : List Json) :
    ∀ (i0 : Nat) (canvas final : Img) (evs : List SaveEvent),
      pasteLoop size margin ms i0 canvas rs = .ok (final, evs) →
      evs.length = rs.length ∧
      ∀ i (hi : i < rs.length),
        ∃ raw, openRecord (rs.get ⟨i, hi⟩) = .ok raw ∧
          evs[i]? =
            some (.paste (margin + (i0 + i) * ms) margin (raw.resize size size)) := by
  induction rs with
  | nil =>
    intro i0 canvas final evs h
    simp [pasteLoop] at h
    refine ⟨by simp [h.2], fun i hi => absurd hi (by simp)⟩
  | cons q rest ih =>
    intro i0 canvas final evs h
    cases ho : openRecord q with
    | error e => simp [pasteLoop, ho] at h
    | ok raw =>
      cases hrec : pasteLoop size margin ms (i0 + 1)
          (canvas.paste (raw.resize size size) (margin + i0 * ms) margin) rest with
      | error e => simp [pasteLoop, ho, hrec] at h
      | ok pr =>
        obtain ⟨final', evs'⟩ := pr
        simp only [pasteLoop, ho, hrec] at h
        have hpair := Except.ok.inj h
        have hevs : evs =
            SaveEvent.paste (margin + i0 * ms) margin (raw.resize size size) :: evs' :=
          (congrArg Prod.snd hpair).symm
        obtain ⟨hlen, hind⟩ := ih (i0 + 1) _ final' evs' hrec
        constructor
        · rw [hevs, List.length_cons, hlen, List.length_cons]
        · intro i hi
          cases i with
          | zero =>
            refine ⟨raw, ho, ?_⟩
            rw [hevs]
            simp
          | succ i' =>
            have hi' : i' < rest.length := by simpa using hi
            obtain ⟨raw', h1, h2⟩ := hind i' hi'
            have harith : i0 + 1 + i' = i0 + (i' + 1) := by omega
            rw [harith] at h2
            refine ⟨raw', h1, ?_⟩
            rw [hevs]
            simpa using h2

/-! ### Claim C4 -/

/-- C4: when some record's `Src` lacks the `base64,` substring, `save_qrcode`
fails (with the Parse failure of the missing marker when every earlier record
decodes) and writes no output file: the failure aborts the run before
`image.save` is reached. -/
theorem save_qrcode_missing_marker_aborts (records : List Json) (output : String)
    (size : Nat)
    (h : ∃ q ∈ records, ∃ s, jsonGetSrc q = .ok s ∧ reSearchBase64 s = none) :
    (∃ e, save_qrcode records output size = .error e)
    ∧ savedFiles (save_qrcode records output size) = []
    ∧ (∀ pre q post, records = pre ++ q :: post →
        (∀ p ∈ pre, isOkB (openRecord p) = true) →
        (∃ s, jsonGetSrc q = .ok s ∧ reSearchBase64 s = none) →
        save_qrcode records output size = .error .attributeErrorNoneGroup) := by
  have hbadrec : ∀ q : Json, (∃ s, jsonGetSrc q = .ok s ∧ reSearchBase64 s = none) →
      openRecord q = .error .attributeErrorNoneGroup := by
    rintro q ⟨s, hs, hn⟩
    simp [openRecord, openSrc, hs, hn]
  obtain ⟨q, hq, hqs⟩ := h
  have herr : ∃ e, save_qrcode records output size = .error e := by
    obtain ⟨e, he⟩ := pasteLoop_error_of_bad size (computeMargin size)
      (marginSize size) records 0 (initialCanvas records.length size)
      ⟨q, hq, by rw [hbadrec q hqs]; rfl⟩
    refine ⟨e, ?_⟩
    unfold save_qrcode
    rw [he]
  refine ⟨herr, ?_, ?_⟩
  · obtain ⟨e, he⟩ := herr
    rw [he]
    rfl
  · intro pre qq post hsplit hok hqq
    unfold save_qrcode
    rw [hsplit, pasteLoop_first_bad size (computeMargin size) (marginSize size)
      pre qq post 0 _ hok (hbadrec qq hqq)]

/-- Witness for C4: one record without the marker makes the whole save fail
with the missing-marker error and no file written. -/
theorem save_qrcode_missing_marker_aborts_witness :
    (∃ q ∈ [badRecord], ∃ s, jsonGetSrc q = .ok s ∧ reSearchBase64 s = none)
    ∧ ((∃ e, save_qrcode [badRecord] "out.png" 100 = .error e)
      ∧ savedFiles (save_qrcode [badRecord] "out.png" 100) = []
      ∧ (∀ pre q post, [badRecord] = pre ++ q :: post →
          (∀ p ∈ pre, isOkB (openRecord p) = true) →
          (∃ s, jsonGetSrc q = .ok s ∧ reSearchBase64 s = none) →
          save_qrcode [badRecord] "out.png" 100 =
            .error .attributeErrorNoneGroup)) := by
  have hx : ∃ q ∈ [badRecord], ∃ s, jsonGetSrc q = .ok s ∧ reSearchBase64 s = none :=
    ⟨badRecord, by simp, "no-marker", rfl, rfl⟩
  exact ⟨hx, save_qrcode_missing_marker_aborts [badRecord] "out.png" 100 hx⟩

/-! ### Claim C6 -/

/-- C6: on a successful run of `save_qrcode`, record `i` (0-based) is decoded,
resized to exactly `size` by `size` pixels, and pasted at horizontal offset
`margin + i * (size + 2 * margin)` and vertical offset `margin`. -/
theorem save_qrcode_resize_paste_offsets (records : List Json) (output : String)
    (size : Nat) (canvas : Img) (evs : List SaveEvent)
    (h : save_qrcode records output size = .ok (canvas, evs)) :
    ∀ i (hi : i < records.length),
      ∃ raw, openRecord (records.get ⟨i, hi⟩) = .ok raw ∧
        (raw.resize size size).width = size ∧
        (raw.resize size size).height = size ∧
        evs[i]? = some (.paste
          (computeMargin size + i * (size + 2 * computeMargin size))
          (computeMargin size) (raw.resize size size)) := by
  unfold save_qrcode at h
  cases hpl : pasteLoop size (computeMargin size) (marginSize size) 0
      (initialCanvas records.length size) records with
  | error e =>
    rw [hpl] at h
    exact absurd h (by simp)
  | ok pr =>
    obtain ⟨final, evs0⟩ := pr
    rw [hpl] at h
    have hpair := Except.ok.inj h
    have hevs : evs = evs0 ++ [SaveEvent.fileWrite output final] :=
      (congrArg Prod.snd hpair).symm
    obtain ⟨hlen, hind⟩ := pasteLoop_events size (computeMargin size)
      (marginSize size) records 0 _ final evs0 hpl
    intro i hi
    obtain ⟨raw, h1, h2⟩ := hind i hi
    have hms : marginSize size = size + 2 * computeMargin size := by
      unfold marginSize
      omega
    rw [Nat.zero_add, hms] at h2
    refine ⟨raw, h1, rfl, rfl, ?_⟩
    rw [hevs, List.getElem?_append_left (by rw [hlen]; exact hi), h2]

/-- Witness for C6: a concrete one-record list is pasted at offset (0, 0)
with size 1 (margin 0). -/
theorem save_qrcode_resize_paste_offsets_witness :
    save_qrcode [mkDataUriRecord sampleImg] "out.png" 1 =
      .ok (⟨1, 1, [[(7, 8, 9)]]⟩,
        [.paste 0 0 ⟨1, 1, [[(7, 8, 9)]]⟩,
         .fileWrite "out.png" ⟨1, 1, [[(7, 8, 9)]]⟩])
    ∧ ∀ i (hi : i < [mkDataUriRecord sampleImg].length),
        ∃ raw, openRecord ([mkDataUriRecord sampleImg].get ⟨i, hi⟩) = .ok raw ∧
          (raw.resize 1 1).width = 1 ∧
          (raw.resize 1 1).height = 1 ∧
          [SaveEvent.paste 0 0 ⟨1, 1, [[(7, 8, 9)]]⟩,
            SaveEvent.fileWrite "out.png" ⟨1, 1, [[(7, 8, 9)]]⟩][i]? =
            some (.paste (computeMargin 1 + i * (1 + 2 * computeMargin 1))
              (computeMargin 1) (raw.resize 1 1)) := by
  have hsave : save_qrcode [mkDataUriRecord sampleImg] "out.png" 1 =
      .ok (⟨1, 1, [[(7, 8, 9)]]⟩,
        [.paste 0 0 ⟨1, 1, [[(7, 8, 9)]]⟩,
         .fileWrite "out.png" ⟨1, 1, [[(7, 8, 9)]]⟩]) := rfl
  exact ⟨hsave, save_qrcode_resize_paste_offsets [mkDataUriRecord sampleImg]
    "out.png" 1 _ _ hsave⟩

/-! ### Claim C8 -/

/-- C8: round trip.  For every valid image whose dimensions equal the target
size, encoding it as a base64 data URI and running it through the
compositor's extract, decode, resize and paste pipeline reproduces
pixel-identical content in the pasted region (the resize is a no-op). -/
theorem compositor_roundtrip (img : Img) (size : Nat) (output : String)
    (hv : img.valid = true) (hw : img.width = size) (hh : img.height = size) :
    ∃ canvas evs,
      save_qrcode [mkDataUriRecord img] output size = .ok (canvas, evs) ∧
      ∀ x y, x < size → y < size →
        canvas.getPix (computeMargin size + x) (computeMargin size + y) =
          img.getPix x y := by
  have hopen : openRecord (mkDataUriRecord img) = .ok img := openRecord_mkDataUri img hv
  have hresize : img.resize size size = img := by
    have hr := resize_self img hv
    rw [hw, hh] at hr
    exact hr
  have hsave : save_qrcode [mkDataUriRecord img] output size =
      .ok ((initialCanvas 1 size).paste img (computeMargin size + 0 * marginSize size)
          (computeMargin size),
        [.paste (computeMargin size + 0 * marginSize size) (computeMargin size) img,
         .fileWrite output ((initialCanvas 1 size).paste img
           (computeMargin size + 0 * marginSize size) (computeMargin size))]) := by
    unfold save_qrcode
    simp [pasteLoop, hopen, hresize]
  refine ⟨_, _, hsave, ?_⟩
  intro x y hx hy
  have hm2 : (initialCanvas 1 size).width = marginSize size := by
    show 1 * marginSize size = marginSize size
    omega
  have hxb : computeMargin size + x < (initialCanvas 1 size).width := by
    rw [hm2]
    unfold marginSize
    omega
  have hyb : computeMargin size + y < (initialCanvas 1 size).height := by
    show computeMargin size + y < marginSize size
    unfold marginSize
    omega
  rw [Nat.zero_mul, Nat.add_zero]
  rw [paste_getPix _ _ _ _ _ _ hxb hyb]
  rw [if_pos ⟨by omega, by rw [hw]; omega, by omega, by rw [hh]; omega⟩]
  rw [Nat.add_sub_cancel_left, Nat.add_sub_cancel_left]

/-- Witness for C8 at a concrete 1 by 1 image with size 1. -/
theorem compositor_roundtrip_witness :
    (sampleImg.valid = true ∧ sampleImg.width = 1 ∧ sampleImg.height = 1) ∧
    (∃ canvas evs,
      save_qrcode [mkDataUriRecord sampleImg] "out.png" 1 = .ok (canvas, evs) ∧
      ∀ x y, x < 1 → y < 1 →
        canvas.getPix (computeMargin 1 + x) (computeMargin 1 + y) =
          sampleImg.getPix x y) :=
  ⟨⟨by decide, rfl, rfl⟩,
    compositor_roundtrip sampleImg 1 "out.png" (by decide) rfl rfl⟩

end Izly
